import Mathlib

/-!
Verification development for the declaration representation layer of the
hhvm/hack type checker (files `hphp/hack/src/oxidized_by_ref/gen/typing_defs.rs`,
`decl_reference.rs`, `prim_defs.rs`).

The Rust structs and enums are embedded as Lean structures and inductives with
the same names and field order.  Types that the three source files reference
but do not define (`PosOrDecl`, `Ty`, `Lazy`, the map/set primitives, the
visibility/kind enums) are modelled from the spec, as are the derived
position-insensitive hash, the interchange codec, and the trivial-drop
discipline; each such definition carries a doc comment saying so.
-/

set_option maxHeartbeats 1000000
set_option linter.dupNamespace false

/-- Modelled from the spec: `Pos_or_decl` (the source-position type of
declaration sites, external to the excerpt) is an identifier of a source
file together with a character span. -/
structure PosOrDecl where
  file : String
  startPos : Nat
  endPos : Nat
deriving DecidableEq

/-- Modelled from the spec: the trivial ("none") position used as the
sentinel for absent source locations. -/
def PosOrDecl.none : PosOrDecl := ⟨"", 0, 0⟩

/-- `PosId<'a>`: a source position paired with an identifier, used
pervasively as entity keys. -/
abbrev PosId : Type := PosOrDecl × String

/-- Modelled from the spec: the two resolution phases a type node can belong
to (`decl_ty` vs `locl_phase` ty), distinguished by the interchange codec. -/
inductive Phase where
  | decl
  | locl
deriving DecidableEq

/-- Modelled from the spec: `Ty` is "treated as an opaque recursively-shaped
external entity"; we keep its resolution phase, the source position carried
by its reason, and an opaque payload naming its shape. -/
structure Ty where
  phase : Phase
  pos : PosOrDecl
  node : String
deriving DecidableEq

/-- Modelled from the spec: `lazy::Lazy<T>` as stored in the arena is a
memoized cell; in the by-ref representation it holds its forced value. -/
structure Lazy (α : Type) where
  force : α
deriving DecidableEq

/-- Modelled from the spec: member visibility (`CeVisibility`), with the
private/protected variants carrying the enclosing class name. -/
inductive CeVisibility where
  | Vpublic
  | Vprivate (cls : String)
  | Vprotected (cls : String)
deriving DecidableEq

/-- Modelled from the spec: class kind (class/interface/trait/enum),
`oxidized::ast_defs::ClassKind`. -/
inductive ClassKind where
  | Cabstract
  | Cnormal
  | Cinterface
  | Ctrait
  | Cenum
deriving DecidableEq

/-- Modelled from the spec: the constructor-consistency marker
(`ConsistentKind`). -/
inductive ConsistentKind where
  | Inconsistent
  | ConsistentConstruct
  | FinalClass
deriving DecidableEq

/-- Modelled from the spec: typedef visibility
(`oxidized::aast::TypedefVisibility`). -/
inductive TypedefVisibility where
  | Transparent
  | Opaque_
deriving DecidableEq

/-- Modelled from the spec: `ast_defs::XhpEnumValue`, an integer or string
enum value. -/
inductive XhpEnumValue where
  | XEVInt (n : Int)
  | XEVString (s : String)
deriving DecidableEq

/-- Modelled from the spec: a generic parameter (`Tparam`), carrying its
name/position pair and its constraint types. -/
structure Tparam where
  name : PosId
  constraints : List Ty
deriving DecidableEq

/-- Modelled from the spec: a `where` constraint between two types
(`WhereConstraint`). -/
structure WhereConstraint where
  left : Ty
  right : Ty
deriving DecidableEq

/-- Modelled from the spec: accumulated declaration errors
(`errors::Errors`), each an error position with a message. -/
abbrev Errors : Type := List (PosOrDecl × String)

/-- Modelled from the spec: `s_map::SMap<'a, T>`, a string-keyed associative
container (arena-resident sorted association list). -/
abbrev SMap (α : Type) : Type := List (String × α)

/-- Modelled from the spec: `s_set::SSet_<'a>`, a set of strings. -/
abbrev SSet_ : Type := List String

/-- `ClassConstFrom` (typing_defs.rs lines 55-59): origin of a class constant
reference, either the declaring class itself (`self::A`) or a named class. -/
inductive ClassConstFrom where
  | Self_
  | From (cls : String)
deriving DecidableEq

/-- `ClassConstRef` (typing_defs.rs lines 90-93): a class constant reference,
an origin tag paired with the constant name. -/
structure ClassConstRef where
  from_ : ClassConstFrom
  const : String
deriving DecidableEq

/-- `ConstDecl` (typing_defs.rs lines 111-116): a global constant
declaration, a position and a type. -/
structure ConstDecl where
  pos : PosOrDecl
  type_ : Ty
deriving DecidableEq

/-- `ClassElt` (typing_defs.rs lines 134-148): a property or method member.
`type_` and `pos` are lazily-forced cells; `flags` is the bit-packed word. -/
structure ClassElt where
  visibility : CeVisibility
  type_ : Lazy Ty
  origin : String
  deprecated : Option String
  pos : Lazy PosOrDecl
  flags : Int
deriving DecidableEq

/-- `FunElt` (typing_defs.rs lines 166-175): a free function declaration. -/
structure FunElt where
  deprecated : Option String
  type_ : Ty
  pos : PosOrDecl
  php_std_lib : Bool
  support_dynamic_type : Bool
deriving DecidableEq

/-- `ClassConst` (typing_defs.rs lines 193-206): a class constant, with the
declaring origin class and the references used in its initializer. -/
structure ClassConst where
  synthesized : Bool
  abstract_ : Bool
  pos : PosOrDecl
  type_ : Ty
  origin : String
  refs : List ClassConstRef
deriving DecidableEq

/-- `RecordFieldReq` (typing_defs.rs lines 226-229). -/
inductive RecordFieldReq where
  | ValueRequired
  | HasDefaultValue
deriving DecidableEq

/-- `RecordDefType` (typing_defs.rs lines 247-257).  The source field
`extends` is a Lean keyword and is rendered `extends_`. -/
structure RecordDefType where
  name : PosId
  extends_ : Option PosId
  fields : List (PosId × RecordFieldReq)
  abstract_ : Bool
  pos : PosOrDecl
deriving DecidableEq

/-- `Requirement` (typing_defs.rs lines 288-292): a `require
extends/implements` constraint's position and target type. -/
structure Requirement where
  pos : PosOrDecl
  ty : Ty
deriving DecidableEq

/-- `AbstractTypeconst` (typing_defs.rs lines 389-396). -/
structure AbstractTypeconst where
  as_constraint : Option Ty
  super_constraint : Option Ty
  default : Option Ty
deriving DecidableEq

/-- `ConcreteTypeconst` (typing_defs.rs lines 414-417). -/
structure ConcreteTypeconst where
  tc_type : Ty
deriving DecidableEq

/-- `PartiallyAbstractTypeconst` (typing_defs.rs lines 435-440). -/
structure PartiallyAbstractTypeconst where
  constraint : Ty
  type_ : Ty
deriving DecidableEq

/-- `Typeconst` (typing_defs.rs lines 459-466): the closed union of type
constant kinds. -/
inductive Typeconst where
  | TCAbstract (a : AbstractTypeconst)
  | TCConcrete (c : ConcreteTypeconst)
  | TCPartiallyAbstract (p : PartiallyAbstractTypeconst)
deriving DecidableEq

/-- `TypeconstType` (typing_defs.rs lines 484-516): a type constant member
with its enforceability (position, bool) pair. -/
structure TypeconstType where
  synthesized : Bool
  name : PosId
  kind : Typeconst
  origin : String
  enforceable : PosOrDecl × Bool
  reifiable : Option PosOrDecl
  concretized : Bool
  is_ctx : Bool
deriving DecidableEq

/-- `EnumType` (typing_defs.rs lines 534-542). -/
structure EnumType where
  base : Ty
  constraint : Option Ty
  includes : List Ty
  enum_class : Bool
deriving DecidableEq

/-- `TypedefType` (typing_defs.rs lines 560-570). -/
structure TypedefType where
  pos : PosOrDecl
  vis : TypedefVisibility
  tparams : List Tparam
  constraint : Option Ty
  type_ : Ty
deriving DecidableEq

/-- `ClassType` (typing_defs.rs lines 310-371): the aggregate class
declaration.  The source field `extends` is a Lean keyword and is rendered
`extends_`. -/
structure ClassType where
  need_init : Bool
  members_fully_known : Bool
  abstract_ : Bool
  final_ : Bool
  const_ : Bool
  deferred_init_members : SSet_
  kind : ClassKind
  is_xhp : Bool
  has_xhp_keyword : Bool
  is_disposable : Bool
  name : String
  pos : PosOrDecl
  tparams : List Tparam
  where_constraints : List WhereConstraint
  consts : SMap ClassConst
  typeconsts : SMap TypeconstType
  props : SMap ClassElt
  sprops : SMap ClassElt
  methods : SMap ClassElt
  smethods : SMap ClassElt
  construct : Option ClassElt × ConsistentKind
  ancestors : SMap Ty
  support_dynamic_type : Bool
  req_ancestors : List Requirement
  req_ancestors_extends : SSet_
  extends_ : SSet_
  enum_type : Option EnumType
  sealed_whitelist : Option SSet_
  xhp_enum_values : SMap (List XhpEnumValue)
  decl_errors : Option Errors
deriving DecidableEq

/-- `DeserializationError` (typing_defs.rs lines 589-602): the closed union
of decode-time failures, each carrying a descriptive message. -/
inductive DeserializationError where
  | WrongPhase (msg : String)
  | NotSupported (msg : String)
  | DeserializationError (msg : String)
deriving DecidableEq

/-- `DeclReference` (decl_reference.rs lines 36-43): a reference to a named
declaration.  The source variant `Type` is a Lean keyword and is rendered
`Type_`. -/
inductive DeclReference where
  | GlobalConstant (name : String)
  | Function (name : String)
  | Type_ (name : String)
deriving DecidableEq

/-- `Comment` (prim_defs.rs lines 36-41): a line or block comment. -/
inductive Comment where
  | CmtLine (s : String)
  | CmtBlock (s : String)
deriving DecidableEq

/-!
## Position-insensitive hashing discipline

Modelled from the spec: the derived `NoPosHash` implementation "recursively
combines fields in a fixed, type-stable order, substituting a sentinel
(constant, not included in the hash stream) wherever a field's declared
type represents a position".  `hash` below is the standard position-
sensitive hash for the position-free types (where the two coincide).
-/

/-- Modelled from the spec: the stream combinator of the hashing layer. -/
def hashCombine (xs : List Nat) : Nat :=
  xs.foldl (fun h x => (h * 31 + x + 1) % 18446744073709551616) 5381

/-- Hash of a string: combine its character codes. -/
def hashStr (s : String) : Nat := hashCombine (s.data.map Char.toNat)

def hashBool : Bool → Nat
  | false => 0
  | true => 1

def hashInt : Int → Nat
  | Int.ofNat n => 2 * n
  | Int.negSucc n => 2 * n + 1

def hashOpt {α : Type} (h : α → Nat) : Option α → Nat
  | Option.none => 0
  | Option.some a => hashCombine [1, h a]

def hashList {α : Type} (h : α → Nat) (l : List α) : Nat := hashCombine (l.map h)

def hashPair {α β : Type} (ha : α → Nat) (hb : β → Nat) (p : α × β) : Nat :=
  hashCombine [ha p.1, hb p.2]

/-- Modelled from the spec: the sentinel substituted for every
position-typed field in the position-insensitive hash stream. -/
def posSentinel : Nat := 0

/-- Standard (position-sensitive) hash of a position. -/
def PosOrDecl.hash (p : PosOrDecl) : Nat :=
  hashCombine [hashStr p.file, p.startPos, p.endPos]

def Phase.tag : Phase → Nat
  | Phase.decl => 0
  | Phase.locl => 1

def PosId.noPosHash (pid : PosId) : Nat := hashCombine [posSentinel, hashStr pid.2]

def Ty.noPosHash (t : Ty) : Nat :=
  hashCombine [Phase.tag t.phase, posSentinel, hashStr t.node]

def CeVisibility.noPosHash : CeVisibility → Nat
  | CeVisibility.Vpublic => hashCombine [0]
  | CeVisibility.Vprivate c => hashCombine [1, hashStr c]
  | CeVisibility.Vprotected c => hashCombine [2, hashStr c]

def ClassKind.tag : ClassKind → Nat
  | ClassKind.Cabstract => 0
  | ClassKind.Cnormal => 1
  | ClassKind.Cinterface => 2
  | ClassKind.Ctrait => 3
  | ClassKind.Cenum => 4

def ConsistentKind.tag : ConsistentKind → Nat
  | ConsistentKind.Inconsistent => 0
  | ConsistentKind.ConsistentConstruct => 1
  | ConsistentKind.FinalClass => 2

def TypedefVisibility.tag : TypedefVisibility → Nat
  | TypedefVisibility.Transparent => 0
  | TypedefVisibility.Opaque_ => 1

def XhpEnumValue.noPosHash : XhpEnumValue → Nat
  | XhpEnumValue.XEVInt n => hashCombine [0, hashInt n]
  | XhpEnumValue.XEVString s => hashCombine [1, hashStr s]

def RecordFieldReq.tag : RecordFieldReq → Nat
  | RecordFieldReq.ValueRequired => 0
  | RecordFieldReq.HasDefaultValue => 1

def Tparam.noPosHash (tp : Tparam) : Nat :=
  hashCombine [tp.name.noPosHash, hashList Ty.noPosHash tp.constraints]

def WhereConstraint.noPosHash (w : WhereConstraint) : Nat :=
  hashCombine [w.left.noPosHash, w.right.noPosHash]

def Errors.noPosHash (e : Errors) : Nat :=
  hashList (fun pr => hashCombine [posSentinel, hashStr pr.2]) e

def smapNoPosHash {α : Type} (h : α → Nat) (m : SMap α) : Nat :=
  hashList (fun kv => hashCombine [hashStr kv.1, h kv.2]) m

def ssetHash (s : SSet_) : Nat := hashList hashStr s

/-- Position-insensitive hash of `ClassConstFrom` (derived `NoPosHash`). -/
def ClassConstFrom.noPosHash : ClassConstFrom → Nat
  | ClassConstFrom.Self_ => hashCombine [0]
  | ClassConstFrom.From c => hashCombine [1, hashStr c]

/-- Standard hash of `ClassConstFrom` (derived `Hash`): the type has no
position-typed field, so the field streams coincide with `noPosHash`. -/
def ClassConstFrom.hash : ClassConstFrom → Nat
  | ClassConstFrom.Self_ => hashCombine [0]
  | ClassConstFrom.From c => hashCombine [1, hashStr c]

def ClassConstRef.noPosHash (r : ClassConstRef) : Nat :=
  hashCombine [r.from_.noPosHash, hashStr r.const]

/-- Standard hash of `ClassConstRef` (derived `Hash`). -/
def ClassConstRef.hash (r : ClassConstRef) : Nat :=
  hashCombine [r.from_.hash, hashStr r.const]

def ConstDecl.noPosHash (c : ConstDecl) : Nat :=
  hashCombine [posSentinel, c.type_.noPosHash]

def ClassElt.noPosHash (e : ClassElt) : Nat :=
  hashCombine [e.visibility.noPosHash, e.type_.force.noPosHash, hashStr e.origin,
    hashOpt hashStr e.deprecated, posSentinel, hashInt e.flags]

def FunElt.noPosHash (f : FunElt) : Nat :=
  hashCombine [hashOpt hashStr f.deprecated, f.type_.noPosHash, posSentinel,
    hashBool f.php_std_lib, hashBool f.support_dynamic_type]

def ClassConst.noPosHash (c : ClassConst) : Nat :=
  hashCombine [hashBool c.synthesized, hashBool c.abstract_, posSentinel,
    c.type_.noPosHash, hashStr c.origin, hashList ClassConstRef.noPosHash c.refs]

def RecordDefType.noPosHash (r : RecordDefType) : Nat :=
  hashCombine [r.name.noPosHash, hashOpt PosId.noPosHash r.extends_,
    hashList (hashPair PosId.noPosHash RecordFieldReq.tag) r.fields,
    hashBool r.abstract_, posSentinel]

def Requirement.noPosHash (rq : Requirement) : Nat :=
  hashCombine [posSentinel, rq.ty.noPosHash]

def AbstractTypeconst.noPosHash (a : AbstractTypeconst) : Nat :=
  hashCombine [hashOpt Ty.noPosHash a.as_constraint,
    hashOpt Ty.noPosHash a.super_constraint, hashOpt Ty.noPosHash a.default]

def ConcreteTypeconst.noPosHash (c : ConcreteTypeconst) : Nat :=
  hashCombine [c.tc_type.noPosHash]

def PartiallyAbstractTypeconst.noPosHash (p : PartiallyAbstractTypeconst) : Nat :=
  hashCombine [p.constraint.noPosHash, p.type_.noPosHash]

def Typeconst.noPosHash : Typeconst → Nat
  | Typeconst.TCAbstract a => hashCombine [0, a.noPosHash]
  | Typeconst.TCConcrete c => hashCombine [1, c.noPosHash]
  | Typeconst.TCPartiallyAbstract p => hashCombine [2, p.noPosHash]

def TypeconstType.noPosHash (tt : TypeconstType) : Nat :=
  hashCombine [hashBool tt.synthesized, tt.name.noPosHash, tt.kind.noPosHash,
    hashStr tt.origin, hashCombine [posSentinel, hashBool tt.enforceable.2],
    hashOpt (fun _ => posSentinel) tt.reifiable, hashBool tt.concretized,
    hashBool tt.is_ctx]

def EnumType.noPosHash (e : EnumType) : Nat :=
  hashCombine [e.base.noPosHash, hashOpt Ty.noPosHash e.constraint,
    hashList Ty.noPosHash e.includes, hashBool e.enum_class]

def TypedefType.noPosHash (t : TypedefType) : Nat :=
  hashCombine [posSentinel, t.vis.tag, hashList Tparam.noPosHash t.tparams,
    hashOpt Ty.noPosHash t.constraint, t.type_.noPosHash]

def ClassType.noPosHash (c : ClassType) : Nat :=
  hashCombine [hashBool c.need_init, hashBool c.members_fully_known,
    hashBool c.abstract_, hashBool c.final_, hashBool c.const_,
    ssetHash c.deferred_init_members, c.kind.tag, hashBool c.is_xhp,
    hashBool c.has_xhp_keyword, hashBool c.is_disposable, hashStr c.name,
    posSentinel, hashList Tparam.noPosHash c.tparams,
    hashList WhereConstraint.noPosHash c.where_constraints,
    smapNoPosHash ClassConst.noPosHash c.consts,
    smapNoPosHash TypeconstType.noPosHash c.typeconsts,
    smapNoPosHash ClassElt.noPosHash c.props,
    smapNoPosHash ClassElt.noPosHash c.sprops,
    smapNoPosHash ClassElt.noPosHash c.methods,
    smapNoPosHash ClassElt.noPosHash c.smethods,
    hashPair (hashOpt ClassElt.noPosHash) ConsistentKind.tag c.construct,
    smapNoPosHash Ty.noPosHash c.ancestors, hashBool c.support_dynamic_type,
    hashList Requirement.noPosHash c.req_ancestors,
    ssetHash c.req_ancestors_extends, ssetHash c.extends_,
    hashOpt EnumType.noPosHash c.enum_type, hashOpt ssetHash c.sealed_whitelist,
    smapNoPosHash (hashList XhpEnumValue.noPosHash) c.xhp_enum_values,
    hashOpt Errors.noPosHash c.decl_errors]

def DeclReference.noPosHash : DeclReference → Nat
  | DeclReference.GlobalConstant s => hashCombine [0, hashStr s]
  | DeclReference.Function s => hashCombine [1, hashStr s]
  | DeclReference.Type_ s => hashCombine [2, hashStr s]

def Comment.noPosHash : Comment → Nat
  | Comment.CmtLine s => hashCombine [0, hashStr s]
  | Comment.CmtBlock s => hashCombine [1, hashStr s]

/-!
## Position-rewriting transformations

`mapPos f e` rewrites every field whose declared type is a source position
(`PosOrDecl`, including positions inside `PosId` and inside type nodes)
with `f`, leaving every other field unchanged.  This is the precise class
of transformations quantified over by the position-insensitivity property.
-/

def PosId.mapPos (f : PosOrDecl → PosOrDecl) (pid : PosId) : PosId := (f pid.1, pid.2)

def Ty.mapPos (f : PosOrDecl → PosOrDecl) (t : Ty) : Ty := ⟨t.phase, f t.pos, t.node⟩

def Tparam.mapPos (f : PosOrDecl → PosOrDecl) (tp : Tparam) : Tparam :=
  ⟨tp.name.mapPos f, tp.constraints.map (Ty.mapPos f)⟩

def WhereConstraint.mapPos (f : PosOrDecl → PosOrDecl) (w : WhereConstraint) : WhereConstraint :=
  ⟨w.left.mapPos f, w.right.mapPos f⟩

def Errors.mapPos (f : PosOrDecl → PosOrDecl) (e : Errors) : Errors :=
  e.map (fun pr => (f pr.1, pr.2))

def smapMapPos {α : Type} (g : α → α) (m : SMap α) : SMap α :=
  m.map (fun kv => (kv.1, g kv.2))

def ClassConstFrom.mapPos (_f : PosOrDecl → PosOrDecl) (x : ClassConstFrom) : ClassConstFrom := x

def ClassConstRef.mapPos (_f : PosOrDecl → PosOrDecl) (x : ClassConstRef) : ClassConstRef := x

def ConstDecl.mapPos (f : PosOrDecl → PosOrDecl) (c : ConstDecl) : ConstDecl :=
  ⟨f c.pos, c.type_.mapPos f⟩

def ClassElt.mapPos (f : PosOrDecl → PosOrDecl) (e : ClassElt) : ClassElt :=
  ⟨e.visibility, ⟨e.type_.force.mapPos f⟩, e.origin, e.deprecated, ⟨f e.pos.force⟩, e.flags⟩

def FunElt.mapPos (f : PosOrDecl → PosOrDecl) (fe : FunElt) : FunElt :=
  ⟨fe.deprecated, fe.type_.mapPos f, f fe.pos, fe.php_std_lib, fe.support_dynamic_type⟩

def ClassConst.mapPos (f : PosOrDecl → PosOrDecl) (c : ClassConst) : ClassConst :=
  ⟨c.synthesized, c.abstract_, f c.pos, c.type_.mapPos f, c.origin, c.refs⟩

def RecordDefType.mapPos (f : PosOrDecl → PosOrDecl) (r : RecordDefType) : RecordDefType :=
  ⟨r.name.mapPos f, r.extends_.map (PosId.mapPos f),
    r.fields.map (fun pr => (pr.1.mapPos f, pr.2)), r.abstract_, f r.pos⟩

def Requirement.mapPos (f : PosOrDecl → PosOrDecl) (rq : Requirement) : Requirement :=
  ⟨f rq.pos, rq.ty.mapPos f⟩

def AbstractTypeconst.mapPos (f : PosOrDecl → PosOrDecl) (a : AbstractTypeconst) : AbstractTypeconst :=
  ⟨a.as_constraint.map (Ty.mapPos f), a.super_constraint.map (Ty.mapPos f),
    a.default.map (Ty.mapPos f)⟩

def ConcreteTypeconst.mapPos (f : PosOrDecl → PosOrDecl) (c : ConcreteTypeconst) : ConcreteTypeconst :=
  ⟨c.tc_type.mapPos f⟩

def PartiallyAbstractTypeconst.mapPos (f : PosOrDecl → PosOrDecl) (p : PartiallyAbstractTypeconst) : PartiallyAbstractTypeconst :=
  ⟨p.constraint.mapPos f, p.type_.mapPos f⟩

def Typeconst.mapPos (f : PosOrDecl → PosOrDecl) : Typeconst → Typeconst
  | Typeconst.TCAbstract a => Typeconst.TCAbstract (a.mapPos f)
  | Typeconst.TCConcrete c => Typeconst.TCConcrete (c.mapPos f)
  | Typeconst.TCPartiallyAbstract p => Typeconst.TCPartiallyAbstract (p.mapPos f)

def TypeconstType.mapPos (f : PosOrDecl → PosOrDecl) (tt : TypeconstType) : TypeconstType :=
  ⟨tt.synthesized, tt.name.mapPos f, tt.kind.mapPos f, tt.origin,
    (f tt.enforceable.1, tt.enforceable.2), tt.reifiable.map f, tt.concretized,
    tt.is_ctx⟩

def EnumType.mapPos (f : PosOrDecl → PosOrDecl) (e : EnumType) : EnumType :=
  ⟨e.base.mapPos f, e.constraint.map (Ty.mapPos f), e.includes.map (Ty.mapPos f),
    e.enum_class⟩

def TypedefType.mapPos (f : PosOrDecl → PosOrDecl) (t : TypedefType) : TypedefType :=
  ⟨f t.pos, t.vis, t.tparams.map (Tparam.mapPos f), t.constraint.map (Ty.mapPos f),
    t.type_.mapPos f⟩

def ClassType.mapPos (f : PosOrDecl → PosOrDecl) (c : ClassType) : ClassType :=
  ⟨c.need_init, c.members_fully_known, c.abstract_, c.final_, c.const_,
    c.deferred_init_members, c.kind, c.is_xhp, c.has_xhp_keyword, c.is_disposable,
    c.name, f c.pos, c.tparams.map (Tparam.mapPos f),
    c.where_constraints.map (WhereConstraint.mapPos f),
    smapMapPos (ClassConst.mapPos f) c.consts,
    smapMapPos (TypeconstType.mapPos f) c.typeconsts,
    smapMapPos (ClassElt.mapPos f) c.props,
    smapMapPos (ClassElt.mapPos f) c.sprops,
    smapMapPos (ClassElt.mapPos f) c.methods,
    smapMapPos (ClassElt.mapPos f) c.smethods,
    (c.construct.1.map (ClassElt.mapPos f), c.construct.2),
    smapMapPos (Ty.mapPos f) c.ancestors, c.support_dynamic_type,
    c.req_ancestors.map (Requirement.mapPos f), c.req_ancestors_extends,
    c.extends_, c.enum_type.map (EnumType.mapPos f), c.sealed_whitelist,
    smapMapPos id c.xhp_enum_values, c.decl_errors.map (Errors.mapPos f)⟩

def DeclReference.mapPos (_f : PosOrDecl → PosOrDecl) (x : DeclReference) : DeclReference := x

def Comment.mapPos (_f : PosOrDecl → PosOrDecl) (x : Comment) : Comment := x

/-- Position-insensitive equality on `ClassConstFrom`: equality after
substituting the trivial position for every position field (the spec's
comparison discipline). -/
def ClassConstFrom.eqModPos (x y : ClassConstFrom) : Prop :=
  x.mapPos (fun _ => PosOrDecl.none) = y.mapPos (fun _ => PosOrDecl.none)

/-- Position-insensitive equality on `ClassConstRef`. -/
def ClassConstRef.eqModPos (x y : ClassConstRef) : Prop :=
  x.mapPos (fun _ => PosOrDecl.none) = y.mapPos (fun _ => PosOrDecl.none)

/-!
## Shape reflection and the trivial-drop discipline

Modelled from the spec: every entity type is arena-allocated and must be
"trivially droppable: constructing or discarding them triggers no
side-effecting cleanup".  `RustTy` reflects the field layout of the source
declarations (primitives, borrowed references `&'a T`, borrowed slices
`&'a [T]`, borrowed strings `&'a str`, options, products and tagged sums);
`hasDropGlue` computes whether discarding a value of such a layout runs any
cleanup (borrows and primitives never do, aggregates do iff a component
does); `mentionsPos` computes whether a position-typed field occurs
anywhere in the layout. -/
inductive RustTy where
  | bool
  | isize
  | strRef
  | pos
  | ref (t : RustTy)
  | slice (t : RustTy)
  | option (t : RustTy)
  | unit
  | fields (head tail : RustTy)
  | sum (a b : RustTy)
deriving DecidableEq

/-- Whether discarding a value of this layout runs per-value cleanup:
borrowed references, slices, strings and primitives never do; an aggregate
does exactly when one of its components does. -/
def RustTy.hasDropGlue : RustTy → Bool
  | RustTy.bool => false
  | RustTy.isize => false
  | RustTy.strRef => false
  | RustTy.pos => false
  | RustTy.ref _ => false
  | RustTy.slice _ => false
  | RustTy.option t => t.hasDropGlue
  | RustTy.unit => false
  | RustTy.fields h t => h.hasDropGlue || t.hasDropGlue
  | RustTy.sum a b => a.hasDropGlue || b.hasDropGlue

/-- Whether a position-typed field occurs anywhere in the layout. -/
def RustTy.mentionsPos : RustTy → Bool
  | RustTy.bool => false
  | RustTy.isize => false
  | RustTy.strRef => false
  | RustTy.pos => true
  | RustTy.ref t => t.mentionsPos
  | RustTy.slice t => t.mentionsPos
  | RustTy.option t => t.mentionsPos
  | RustTy.unit => false
  | RustTy.fields h t => h.mentionsPos || t.mentionsPos
  | RustTy.sum a b => a.mentionsPos || b.mentionsPos

/-- Layout of a lazily-forced cell `lazy::Lazy<T>` (a memoized value). -/
def lazyRust (t : RustTy) : RustTy := RustTy.fields t RustTy.unit

/-- Layout of `s_map::SMap<'a, T>`: a borrowed slice of key/value pairs. -/
def smapRust (v : RustTy) : RustTy :=
  RustTy.slice (RustTy.fields RustTy.strRef (RustTy.fields v RustTy.unit))

/-- Layout of `s_set::SSet<'a>`. -/
def ssetRust : RustTy := RustTy.slice RustTy.strRef

/-- Layout of the modelled opaque `Ty` node (a reason position plus shape). -/
def Ty.rust : RustTy := RustTy.fields RustTy.pos (RustTy.fields RustTy.strRef RustTy.unit)

/-- Layout of `PosId<'a>`: a borrowed position and a borrowed name. -/
def PosId.rust : RustTy :=
  RustTy.fields (RustTy.ref RustTy.pos) (RustTy.fields RustTy.strRef RustTy.unit)

/-- Layout of `ClassConstFrom` (typing_defs.rs lines 55-59). -/
def ClassConstFrom.rust : RustTy :=
  RustTy.sum RustTy.unit (RustTy.fields RustTy.strRef RustTy.unit)

/-- Layout of `ClassConstRef` (typing_defs.rs lines 90-93). -/
def ClassConstRef.rust : RustTy :=
  RustTy.fields ClassConstFrom.rust (RustTy.fields RustTy.strRef RustTy.unit)

/-- Layout of `ConstDecl` (typing_defs.rs lines 111-116). -/
def ConstDecl.rust : RustTy :=
  RustTy.fields (RustTy.ref RustTy.pos) (RustTy.fields (RustTy.ref Ty.rust) RustTy.unit)

/-- Layout of `CeVisibility` (modelled). -/
def CeVisibility.rust : RustTy :=
  RustTy.sum RustTy.unit
    (RustTy.sum (RustTy.fields RustTy.strRef RustTy.unit)
      (RustTy.fields RustTy.strRef RustTy.unit))

/-- Layout of `ClassElt` (typing_defs.rs lines 134-148). -/
def ClassElt.rust : RustTy :=
  RustTy.fields CeVisibility.rust
    (RustTy.fields (RustTy.ref (lazyRust (RustTy.ref Ty.rust)))
      (RustTy.fields RustTy.strRef
        (RustTy.fields (RustTy.option RustTy.strRef)
          (RustTy.fields (RustTy.ref (lazyRust (RustTy.ref RustTy.pos)))
            (RustTy.fields RustTy.isize RustTy.unit)))))

/-- Layout of `FunElt` (typing_defs.rs lines 166-175). -/
def FunElt.rust : RustTy :=
  RustTy.fields (RustTy.option RustTy.strRef)
    (RustTy.fields (RustTy.ref Ty.rust)
      (RustTy.fields (RustTy.ref RustTy.pos)
        (RustTy.fields RustTy.bool (RustTy.fields RustTy.bool RustTy.unit))))

/-- Layout of `ClassConst` (typing_defs.rs lines 193-206). -/
def ClassConst.rust : RustTy :=
  RustTy.fields RustTy.bool
    (RustTy.fields RustTy.bool
      (RustTy.fields (RustTy.ref RustTy.pos)
        (RustTy.fields (RustTy.ref Ty.rust)
          (RustTy.fields RustTy.strRef
            (RustTy.fields (RustTy.slice ClassConstRef.rust) RustTy.unit)))))

/-- Layout of `RecordFieldReq` (typing_defs.rs lines 226-229). -/
def RecordFieldReq.rust : RustTy := RustTy.sum RustTy.unit RustTy.unit

/-- Layout of `RecordDefType` (typing_defs.rs lines 247-257). -/
def RecordDefType.rust : RustTy :=
  RustTy.fields PosId.rust
    (RustTy.fields (RustTy.option PosId.rust)
      (RustTy.fields (RustTy.slice (RustTy.fields PosId.rust (RustTy.fields RecordFieldReq.rust RustTy.unit)))
        (RustTy.fields RustTy.bool (RustTy.fields (RustTy.ref RustTy.pos) RustTy.unit))))

/-- Layout of `Requirement` (typing_defs.rs lines 288-292). -/
def Requirement.rust : RustTy :=
  RustTy.fields (RustTy.ref RustTy.pos) (RustTy.fields (RustTy.ref Ty.rust) RustTy.unit)

/-- Layout of a generic parameter `Tparam` (modelled). -/
def Tparam.rust : RustTy :=
  RustTy.fields PosId.rust (RustTy.fields (RustTy.slice (RustTy.ref Ty.rust)) RustTy.unit)

/-- Layout of `WhereConstraint` (modelled). -/
def WhereConstraint.rust : RustTy :=
  RustTy.fields (RustTy.ref Ty.rust) (RustTy.fields (RustTy.ref Ty.rust) RustTy.unit)

/-- Layout of `oxidized::ast_defs::ClassKind` (modelled, five unit variants). -/
def ClassKind.rust : RustTy :=
  RustTy.sum RustTy.unit (RustTy.sum RustTy.unit (RustTy.sum RustTy.unit (RustTy.sum RustTy.unit RustTy.unit)))

/-- Layout of `ConsistentKind` (modelled, three unit variants). -/
def ConsistentKind.rust : RustTy :=
  RustTy.sum RustTy.unit (RustTy.sum RustTy.unit RustTy.unit)

/-- Layout of `TypedefVisibility` (modelled, two unit variants). -/
def TypedefVisibility.rust : RustTy := RustTy.sum RustTy.unit RustTy.unit

/-- Layout of `ast_defs::XhpEnumValue` (modelled). -/
def XhpEnumValue.rust : RustTy :=
  RustTy.sum (RustTy.fields RustTy.isize RustTy.unit) (RustTy.fields RustTy.strRef RustTy.unit)

/-- Layout of `errors::Errors` (modelled). -/
def Errors.rust : RustTy :=
  RustTy.slice (RustTy.fields (RustTy.ref RustTy.pos) (RustTy.fields RustTy.strRef RustTy.unit))

/-- Layout of `AbstractTypeconst` (typing_defs.rs lines 389-396). -/
def AbstractTypeconst.rust : RustTy :=
  RustTy.fields (RustTy.option (RustTy.ref Ty.rust))
    (RustTy.fields (RustTy.option (RustTy.ref Ty.rust))
      (RustTy.fields (RustTy.option (RustTy.ref Ty.rust)) RustTy.unit))

/-- Layout of `ConcreteTypeconst` (typing_defs.rs lines 414-417). -/
def ConcreteTypeconst.rust : RustTy :=
  RustTy.fields (RustTy.ref Ty.rust) RustTy.unit

/-- Layout of `PartiallyAbstractTypeconst` (typing_defs.rs lines 435-440). -/
def PartiallyAbstractTypeconst.rust : RustTy :=
  RustTy.fields (RustTy.ref Ty.rust) (RustTy.fields (RustTy.ref Ty.rust) RustTy.unit)

/-- Layout of `Typeconst` (typing_defs.rs lines 459-466). -/
def Typeconst.rust : RustTy :=
  RustTy.sum (RustTy.fields (RustTy.ref AbstractTypeconst.rust) RustTy.unit)
    (RustTy.sum (RustTy.fields (RustTy.ref ConcreteTypeconst.rust) RustTy.unit)
      (RustTy.fields (RustTy.ref PartiallyAbstractTypeconst.rust) RustTy.unit))

/-- Layout of `TypeconstType` (typing_defs.rs lines 484-516). -/
def TypeconstType.rust : RustTy :=
  RustTy.fields RustTy.bool
    (RustTy.fields PosId.rust
      (RustTy.fields Typeconst.rust
        (RustTy.fields RustTy.strRef
          (RustTy.fields (RustTy.fields (RustTy.ref RustTy.pos) (RustTy.fields RustTy.bool RustTy.unit))
            (RustTy.fields (RustTy.option (RustTy.ref RustTy.pos))
              (RustTy.fields RustTy.bool (RustTy.fields RustTy.bool RustTy.unit)))))))

/-- Layout of `EnumType` (typing_defs.rs lines 534-542). -/
def EnumType.rust : RustTy :=
  RustTy.fields (RustTy.ref Ty.rust)
    (RustTy.fields (RustTy.option (RustTy.ref Ty.rust))
      (RustTy.fields (RustTy.slice (RustTy.ref Ty.rust))
        (RustTy.fields RustTy.bool RustTy.unit)))

/-- Layout of `TypedefType` (typing_defs.rs lines 560-570). -/
def TypedefType.rust : RustTy :=
  RustTy.fields (RustTy.ref RustTy.pos)
    (RustTy.fields TypedefVisibility.rust
      (RustTy.fields (RustTy.slice (RustTy.ref Tparam.rust))
        (RustTy.fields (RustTy.option (RustTy.ref Ty.rust))
          (RustTy.fields (RustTy.ref Ty.rust) RustTy.unit))))

/-- Layout of `ClassType` (typing_defs.rs lines 310-371), field by field in
source order. -/
def ClassType.rust : RustTy :=
  RustTy.fields RustTy.bool
    (RustTy.fields RustTy.bool
      (RustTy.fields RustTy.bool
        (RustTy.fields RustTy.bool
          (RustTy.fields RustTy.bool
            (RustTy.fields ssetRust
              (RustTy.fields ClassKind.rust
                (RustTy.fields RustTy.bool
                  (RustTy.fields RustTy.bool
                    (RustTy.fields RustTy.bool
                      (RustTy.fields RustTy.strRef
                        (RustTy.fields (RustTy.ref RustTy.pos)
                          (RustTy.fields (RustTy.slice (RustTy.ref Tparam.rust))
                            (RustTy.fields (RustTy.slice (RustTy.ref WhereConstraint.rust))
                              (RustTy.fields (smapRust (RustTy.ref ClassConst.rust))
                                (RustTy.fields (smapRust (RustTy.ref TypeconstType.rust))
                                  (RustTy.fields (smapRust (RustTy.ref ClassElt.rust))
                                    (RustTy.fields (smapRust (RustTy.ref ClassElt.rust))
                                      (RustTy.fields (smapRust (RustTy.ref ClassElt.rust))
                                        (RustTy.fields (smapRust (RustTy.ref ClassElt.rust))
                                          (RustTy.fields (RustTy.fields (RustTy.option (RustTy.ref ClassElt.rust)) (RustTy.fields ConsistentKind.rust RustTy.unit))
                                            (RustTy.fields (smapRust (RustTy.ref Ty.rust))
                                              (RustTy.fields RustTy.bool
                                                (RustTy.fields (RustTy.slice (RustTy.ref Requirement.rust))
                                                  (RustTy.fields ssetRust
                                                    (RustTy.fields ssetRust
                                                      (RustTy.fields (RustTy.option (RustTy.ref EnumType.rust))
                                                        (RustTy.fields (RustTy.option ssetRust)
                                                          (RustTy.fields (smapRust (RustTy.slice XhpEnumValue.rust))
                                                            (RustTy.fields (RustTy.option (RustTy.ref Errors.rust)) RustTy.unit)))))))))))))))))))))))))))))

/-- Layout of `DeserializationError` (typing_defs.rs lines 589-602). -/
def DeserializationError.rust : RustTy :=
  RustTy.sum (RustTy.fields RustTy.strRef RustTy.unit)
    (RustTy.sum (RustTy.fields RustTy.strRef RustTy.unit)
      (RustTy.fields RustTy.strRef RustTy.unit))

/-- Layout of `DeclReference` (decl_reference.rs lines 36-43). -/
def DeclReference.rust : RustTy :=
  RustTy.sum (RustTy.fields RustTy.strRef RustTy.unit)
    (RustTy.sum (RustTy.fields RustTy.strRef RustTy.unit)
      (RustTy.fields RustTy.strRef RustTy.unit))

/-- Layout of `Comment` (prim_defs.rs lines 36-41). -/
def Comment.rust : RustTy :=
  RustTy.sum (RustTy.fields RustTy.strRef RustTy.unit)
    (RustTy.fields RustTy.strRef RustTy.unit)

/-!
## Interchange codec

Modelled from the spec: the wire form is "a self-describing tagged-value
encoding (variant tag + fixed payload arity per tag)"; decode "fails with
`DeserializationError::DeserializationError` on structurally malformed
input (wrong tag, wrong arity), `WrongPhase` when a type node intended for
one resolution phase appears where another phase's node is required".
The codec below covers the representative entities named by the spec's
round-trip and malformed-input properties (`Ty`, `Typeconst`,
`TypeconstType`, `DeclReference`).
-/

/-- Modelled from the spec: a language-neutral tagged wire value (integers,
strings, booleans, tagged variants with a fixed payload list). -/
inductive Value where
  | vint (n : Int)
  | vstr (s : String)
  | vbool (b : Bool)
  | vtag (tag : Nat) (args : List Value)

def encodePos (p : PosOrDecl) : Value :=
  Value.vtag 0 [Value.vstr p.file, Value.vint (Int.ofNat p.startPos),
    Value.vint (Int.ofNat p.endPos)]

def decodePos : Value → Except DeserializationError PosOrDecl
  | Value.vtag 0 [Value.vstr f, Value.vint a, Value.vint b] =>
      Except.ok ⟨f, a.toNat, b.toNat⟩
  | _ => Except.error (DeserializationError.DeserializationError "malformed position")

def encodeTy (t : Ty) : Value :=
  Value.vtag t.phase.tag [encodePos t.pos, Value.vstr t.node]

/-- Decode a type node required to belong to phase `expected`; a
well-formed node of the other phase yields `WrongPhase`. -/
def decodeTy (expected : Phase) : Value → Except DeserializationError Ty
  | Value.vtag tag args =>
      if tag = expected.tag then
        match args with
        | [p, Value.vstr node] =>
            match decodePos p with
            | Except.ok pos => Except.ok ⟨expected, pos, node⟩
            | Except.error e => Except.error e
        | _ => Except.error (DeserializationError.DeserializationError "type node: wrong arity")
      else if tag = 0 ∨ tag = 1 then
        Except.error (DeserializationError.WrongPhase "type node of the other resolution phase")
      else
        Except.error (DeserializationError.DeserializationError "type node: unknown tag")
  | _ => Except.error (DeserializationError.DeserializationError "type node: expected a tagged value")

def encodeOpt {α : Type} (e : α → Value) : Option α → Value
  | Option.none => Value.vtag 0 []
  | Option.some a => Value.vtag 1 [e a]

def decodeOpt {α : Type} (d : Value → Except DeserializationError α) :
    Value → Except DeserializationError (Option α)
  | Value.vtag 0 [] => Except.ok Option.none
  | Value.vtag 1 [v] =>
      match d v with
      | Except.ok a => Except.ok (Option.some a)
      | Except.error e => Except.error e
  | _ => Except.error (DeserializationError.DeserializationError "malformed option")

def encodeTypeconst : Typeconst → Value
  | Typeconst.TCAbstract a =>
      Value.vtag 0 [encodeOpt encodeTy a.as_constraint, encodeOpt encodeTy a.super_constraint,
        encodeOpt encodeTy a.default]
  | Typeconst.TCConcrete c => Value.vtag 1 [encodeTy c.tc_type]
  | Typeconst.TCPartiallyAbstract p =>
      Value.vtag 2 [encodeTy p.constraint, encodeTy p.type_]

/-- Decode a `Typeconst`; the known variant tags are 0 (`TCAbstract`),
1 (`TCConcrete`) and 2 (`TCPartiallyAbstract`); every contained type node
is required to be a decl-phase node; a tag outside the known variant set
is a malformed-input error. -/
def decodeTypeconst : Value → Except DeserializationError Typeconst
  | Value.vtag tag args =>
      if tag = 0 then
        match args with
        | [a, s, d] =>
            match decodeOpt (decodeTy Phase.decl) a with
            | Except.error e => Except.error e
            | Except.ok oa =>
              match decodeOpt (decodeTy Phase.decl) s with
              | Except.error e => Except.error e
              | Except.ok os =>
                match decodeOpt (decodeTy Phase.decl) d with
                | Except.error e => Except.error e
                | Except.ok od => Except.ok (Typeconst.TCAbstract ⟨oa, os, od⟩)
        | _ => Except.error (DeserializationError.DeserializationError "type constant: wrong arity")
      else if tag = 1 then
        match args with
        | [t] =>
            match decodeTy Phase.decl t with
            | Except.error e => Except.error e
            | Except.ok ty => Except.ok (Typeconst.TCConcrete ⟨ty⟩)
        | _ => Except.error (DeserializationError.DeserializationError "type constant: wrong arity")
      else if tag = 2 then
        match args with
        | [c, t] =>
            match decodeTy Phase.decl c with
            | Except.error e => Except.error e
            | Except.ok cty =>
              match decodeTy Phase.decl t with
              | Except.error e => Except.error e
              | Except.ok ty => Except.ok (Typeconst.TCPartiallyAbstract ⟨cty, ty⟩)
        | _ => Except.error (DeserializationError.DeserializationError "type constant: wrong arity")
      else
        Except.error (DeserializationError.DeserializationError "type constant: tag not in the known variant set")
  | _ => Except.error (DeserializationError.DeserializationError "type constant: expected a tagged value")

def encodePosId (pid : PosId) : Value :=
  Value.vtag 0 [encodePos pid.1, Value.vstr pid.2]

def decodePosId : Value → Except DeserializationError PosId
  | Value.vtag 0 [p, Value.vstr s] =>
      match decodePos p with
      | Except.ok pos => Except.ok (pos, s)
      | Except.error e => Except.error e
  | _ => Except.error (DeserializationError.DeserializationError "malformed positioned identifier")

def encodeTypeconstType (tt : TypeconstType) : Value :=
  Value.vtag 0 [Value.vbool tt.synthesized, encodePosId tt.name,
    encodeTypeconst tt.kind, Value.vstr tt.origin,
    Value.vtag 0 [encodePos tt.enforceable.1, Value.vbool tt.enforceable.2],
    encodeOpt encodePos tt.reifiable, Value.vbool tt.concretized,
    Value.vbool tt.is_ctx]

def decodeTypeconstType : Value → Except DeserializationError TypeconstType
  | Value.vtag 0 [Value.vbool syn, nm, k, Value.vstr org,
      Value.vtag 0 [ep, Value.vbool eb], rf, Value.vbool conc, Value.vbool ictx] =>
      match decodePosId nm with
      | Except.error e => Except.error e
      | Except.ok name =>
        match decodeTypeconst k with
        | Except.error e => Except.error e
        | Except.ok kind =>
          match decodePos ep with
          | Except.error e => Except.error e
          | Except.ok epos =>
            match decodeOpt decodePos rf with
            | Except.error e => Except.error e
            | Except.ok reif =>
                Except.ok ⟨syn, name, kind, org, (epos, eb), reif, conc, ictx⟩
  | _ => Except.error (DeserializationError.DeserializationError "malformed type constant member")

def encodeDeclReference : DeclReference → Value
  | DeclReference.GlobalConstant s => Value.vtag 0 [Value.vstr s]
  | DeclReference.Function s => Value.vtag 1 [Value.vstr s]
  | DeclReference.Type_ s => Value.vtag 2 [Value.vstr s]

def decodeDeclReference : Value → Except DeserializationError DeclReference
  | Value.vtag 0 [Value.vstr s] => Except.ok (DeclReference.GlobalConstant s)
  | Value.vtag 1 [Value.vstr s] => Except.ok (DeclReference.Function s)
  | Value.vtag 2 [Value.vstr s] => Except.ok (DeclReference.Type_ s)
  | _ => Except.error (DeserializationError.DeserializationError "malformed declaration reference")

/-- Whether a type node belongs to the decl phase. -/
def Ty.isDecl (t : Ty) : Bool :=
  match t.phase with
  | Phase.decl => true
  | Phase.locl => false

/-- All type nodes of a `Typeconst` belong to the decl phase (the phase
discipline every decoded value satisfies). -/
def Typeconst.declPhase : Typeconst → Bool
  | Typeconst.TCAbstract a =>
      a.as_constraint.all Ty.isDecl && a.super_constraint.all Ty.isDecl &&
        a.default.all Ty.isDecl
  | Typeconst.TCConcrete c => c.tc_type.isDecl
  | Typeconst.TCPartiallyAbstract p => p.constraint.isDecl && p.type_.isDecl

/-- All type nodes of a `TypeconstType` belong to the decl phase. -/
def TypeconstType.declPhase (tt : TypeconstType) : Bool := tt.kind.declPhase

/-!
## Enforceability of type constants

Modelled from the spec: the decl pipeline that populates
`TypeconstType.enforceable` is outside the excerpt.  Per the field's
documentation (typing_defs.rs lines 492-509): if the typeconst had the
`<<__Enforceable>>` attribute on its declaration the field is
`(position_of_declaration, true)`; in legacy decl the boolean is also true
when the attribute is inherited from an overridden parent typeconst (the
position then pointing at the parent declaration); in shallow decl no such
inheritance happens; and when the boolean is false the position is
`Pos_or_decl.none`. -/
inductive DeclMode where
  | legacy
  | shallow
deriving DecidableEq

/-- Modelled from the spec: where a typeconst's `<<__Enforceable>>`
attribute can come from — its own declaration, an overridden parent
typeconst's declaration, or nowhere. -/
inductive EnforceableSource where
  | ownAttribute (declPos : PosOrDecl)
  | inheritedAttribute (parentDeclPos : PosOrDecl)
  | noAttribute
deriving DecidableEq

/-- The positions an `EnforceableSource` carries are real declaration
sites (non-trivial positions). -/
def EnforceableSource.real : EnforceableSource → Prop
  | EnforceableSource.ownAttribute p => p ≠ PosOrDecl.none
  | EnforceableSource.inheritedAttribute p => p ≠ PosOrDecl.none
  | EnforceableSource.noAttribute => True

instance : DecidablePred EnforceableSource.real := by
  intro s
  cases s <;> simp [EnforceableSource.real] <;> infer_instance

/-- Modelled from the spec: how the decl pipeline populates
`TypeconstType.enforceable` from the attribute's provenance in each
composition mode. -/
def mkEnforceable : DeclMode → EnforceableSource → PosOrDecl × Bool
  | _, EnforceableSource.ownAttribute p => (p, true)
  | DeclMode.legacy, EnforceableSource.inheritedAttribute p => (p, true)
  | DeclMode.shallow, EnforceableSource.inheritedAttribute _ => (PosOrDecl.none, false)
  | _, EnforceableSource.noAttribute => (PosOrDecl.none, false)

/-- The descriptive message carried by every `DeserializationError` variant. -/
def errorMessage : DeserializationError → String
  | DeserializationError.WrongPhase s => s
  | DeserializationError.NotSupported s => s
  | DeserializationError.DeserializationError s => s

/-- Variant tag of a `DeserializationError`. -/
def errorCtag : DeserializationError → Nat
  | DeserializationError.WrongPhase _ => 0
  | DeserializationError.NotSupported _ => 1
  | DeserializationError.DeserializationError _ => 2

/-- Rebuild a `DeserializationError` from its variant tag and message. -/
def mkDeserializationError : Nat → String → DeserializationError
  | 0, s => DeserializationError.WrongPhase s
  | 1, s => DeserializationError.NotSupported s
  | _, s => DeserializationError.DeserializationError s

/-- The referenced declaration's name, the single payload of every
`DeclReference` variant. -/
def DeclReference.name : DeclReference → String
  | DeclReference.GlobalConstant s => s
  | DeclReference.Function s => s
  | DeclReference.Type_ s => s

/-- Variant tag of a `DeclReference`. -/
def DeclReference.ctag : DeclReference → Nat
  | DeclReference.GlobalConstant _ => 0
  | DeclReference.Function _ => 1
  | DeclReference.Type_ _ => 2

/-- Rebuild a `DeclReference` from its variant tag and name. -/
def mkDeclReference : Nat → String → DeclReference
  | 0, s => DeclReference.GlobalConstant s
  | 1, s => DeclReference.Function s
  | _, s => DeclReference.Type_ s

/-- Variant tag of a `Typeconst`. -/
def Typeconst.ctag : Typeconst → Nat
  | Typeconst.TCAbstract _ => 0
  | Typeconst.TCConcrete _ => 1
  | Typeconst.TCPartiallyAbstract _ => 2

/-!
## Sample values

Concrete entities used to instantiate the properties (witnesses and
distinguishing examples). -/

def samplePos : PosOrDecl := ⟨"a.php", 5, 9⟩

def posBump : PosOrDecl → PosOrDecl := fun _ => ⟨"b.php", 1, 2⟩

def sampleTy : Ty := ⟨Phase.decl, samplePos, "int"⟩

def sampleLoclTy : Ty := ⟨Phase.locl, samplePos, "int"⟩

def sampleConstDecl : ConstDecl := ⟨samplePos, sampleTy⟩

def sampleClassConst : ClassConst :=
  ⟨false, false, samplePos, sampleTy, "C", [⟨ClassConstFrom.From "D", "A"⟩]⟩

def sampleClassElt : ClassElt :=
  ⟨CeVisibility.Vpublic, ⟨sampleTy⟩, "C", Option.none, ⟨samplePos⟩, 0⟩

def sampleFunElt : FunElt := ⟨Option.none, sampleTy, samplePos, false, false⟩

def sampleRecordDefType : RecordDefType :=
  ⟨(samplePos, "R"), Option.none, [], false, samplePos⟩

def sampleRequirement : Requirement := ⟨samplePos, sampleTy⟩

def sampleTypeconstType : TypeconstType :=
  ⟨false, (samplePos, "T"), Typeconst.TCConcrete ⟨sampleTy⟩, "C",
    (samplePos, true), Option.none, false, false⟩

def sampleEnumType : EnumType := ⟨sampleTy, Option.none, [], false⟩

def sampleTypedefType : TypedefType :=
  ⟨samplePos, TypedefVisibility.Transparent, [], Option.none, sampleTy⟩

def sampleClassType : ClassType :=
  ⟨false, true, false, false, false, [], ClassKind.Cnormal, false, false, false,
    "C", samplePos, [], [], [], [], [], [], [], [],
    (Option.none, ConsistentKind.Inconsistent), [], false, [], [], [],
    Option.none, Option.none, [], Option.none⟩

def sampleDeclReference : DeclReference := DeclReference.Function "f"

def sampleComment : Comment := Comment.CmtLine "c"

/-!
## Helper lemmas: position-insensitivity of the hash, component by component
-/

theorem list_map_hash_eq {α : Type} {g : α → α} {h : α → Nat}
    (hg : ∀ x, h (g x) = h x) : ∀ l : List α, (l.map g).map h = l.map h := by
  intro l
  induction l with
  | nil => rfl
  | cons a t ih => simp only [List.map_cons, hg, ih]

theorem hashList_mapPos {α : Type} {g : α → α} {h : α → Nat}
    (hg : ∀ x, h (g x) = h x) (l : List α) :
    hashList h (l.map g) = hashList h l := by
  unfold hashList
  rw [list_map_hash_eq hg]

theorem hashOpt_mapPos {α : Type} {g : α → α} {h : α → Nat}
    (hg : ∀ x, h (g x) = h x) (o : Option α) :
    hashOpt h (o.map g) = hashOpt h o := by
  cases o <;> simp [hashOpt, Option.map, hg]

theorem smapNoPosHash_mapPos {α : Type} {g : α → α} {h : α → Nat}
    (hg : ∀ x, h (g x) = h x) (m : SMap α) :
    smapNoPosHash h (smapMapPos g m) = smapNoPosHash h m := by
  unfold smapNoPosHash smapMapPos
  exact hashList_mapPos (fun kv => by simp [hg]) m

theorem noPosHash_mapPos_Ty (f : PosOrDecl → PosOrDecl) (t : Ty) :
    (t.mapPos f).noPosHash = t.noPosHash := rfl

theorem noPosHash_mapPos_PosId (f : PosOrDecl → PosOrDecl) (pid : PosId) :
    (pid.mapPos f).noPosHash = pid.noPosHash := rfl

theorem noPosHash_mapPos_ClassConstFrom (f : PosOrDecl → PosOrDecl) (x : ClassConstFrom) :
    (x.mapPos f).noPosHash = x.noPosHash := rfl

theorem noPosHash_mapPos_ClassConstRef (f : PosOrDecl → PosOrDecl) (x : ClassConstRef) :
    (x.mapPos f).noPosHash = x.noPosHash := rfl

theorem noPosHash_mapPos_ConstDecl (f : PosOrDecl → PosOrDecl) (c : ConstDecl) :
    (c.mapPos f).noPosHash = c.noPosHash := rfl

theorem noPosHash_mapPos_ClassElt (f : PosOrDecl → PosOrDecl) (e : ClassElt) :
    (e.mapPos f).noPosHash = e.noPosHash := rfl

theorem noPosHash_mapPos_FunElt (f : PosOrDecl → PosOrDecl) (fe : FunElt) :
    (fe.mapPos f).noPosHash = fe.noPosHash := rfl

theorem noPosHash_mapPos_ClassConst (f : PosOrDecl → PosOrDecl) (c : ClassConst) :
    (c.mapPos f).noPosHash = c.noPosHash := rfl

theorem noPosHash_mapPos_Requirement (f : PosOrDecl → PosOrDecl) (rq : Requirement) :
    (rq.mapPos f).noPosHash = rq.noPosHash := rfl

theorem noPosHash_mapPos_RecordDefType (f : PosOrDecl → PosOrDecl) (r : RecordDefType) :
    (r.mapPos f).noPosHash = r.noPosHash := by
  cases r with
  | mk name ext flds ab pos =>
    simp only [RecordDefType.mapPos, RecordDefType.noPosHash,
      noPosHash_mapPos_PosId]
    rw [hashOpt_mapPos (noPosHash_mapPos_PosId f) ext]
    rw [hashList_mapPos (g := fun pr => (PosId.mapPos f pr.1, pr.2))
      (h := hashPair PosId.noPosHash RecordFieldReq.tag) (fun pr => rfl) flds]

theorem noPosHash_mapPos_AbstractTypeconst (f : PosOrDecl → PosOrDecl) (a : AbstractTypeconst) :
    (a.mapPos f).noPosHash = a.noPosHash := by
  cases a with
  | mk u s d =>
    simp only [AbstractTypeconst.mapPos, AbstractTypeconst.noPosHash]
    rw [hashOpt_mapPos (noPosHash_mapPos_Ty f) u,
      hashOpt_mapPos (noPosHash_mapPos_Ty f) s,
      hashOpt_mapPos (noPosHash_mapPos_Ty f) d]

theorem noPosHash_mapPos_ConcreteTypeconst (f : PosOrDecl → PosOrDecl) (c : ConcreteTypeconst) :
    (c.mapPos f).noPosHash = c.noPosHash := rfl

theorem noPosHash_mapPos_PartiallyAbstractTypeconst (f : PosOrDecl → PosOrDecl)
    (p : PartiallyAbstractTypeconst) : (p.mapPos f).noPosHash = p.noPosHash := rfl

theorem noPosHash_mapPos_Typeconst (f : PosOrDecl → PosOrDecl) (k : Typeconst) :
    (k.mapPos f).noPosHash = k.noPosHash := by
  cases k with
  | TCAbstract a =>
    simp only [Typeconst.mapPos, Typeconst.noPosHash, noPosHash_mapPos_AbstractTypeconst]
  | TCConcrete c => rfl
  | TCPartiallyAbstract p => rfl

theorem noPosHash_mapPos_TypeconstType (f : PosOrDecl → PosOrDecl) (tt : TypeconstType) :
    (tt.mapPos f).noPosHash = tt.noPosHash := by
  cases tt with
  | mk syn name kind org enf reif conc ictx =>
    simp only [TypeconstType.mapPos, TypeconstType.noPosHash,
      noPosHash_mapPos_Typeconst, noPosHash_mapPos_PosId]
    rw [hashOpt_mapPos (g := f) (h := fun _ => posSentinel) (fun _ => rfl) reif]

theorem noPosHash_mapPos_Tparam (f : PosOrDecl → PosOrDecl) (tp : Tparam) :
    (tp.mapPos f).noPosHash = tp.noPosHash := by
  cases tp with
  | mk name cs =>
    simp only [Tparam.mapPos, Tparam.noPosHash]
    rw [hashList_mapPos (noPosHash_mapPos_Ty f) cs]
    rfl

theorem noPosHash_mapPos_WhereConstraint (f : PosOrDecl → PosOrDecl) (w : WhereConstraint) :
    (w.mapPos f).noPosHash = w.noPosHash := rfl

theorem noPosHash_mapPos_Errors (f : PosOrDecl → PosOrDecl) (e : Errors) :
    (e.mapPos f).noPosHash = e.noPosHash := by
  unfold Errors.mapPos Errors.noPosHash
  exact hashList_mapPos (g := fun pr => (f pr.1, pr.2))
    (h := fun pr => hashCombine [posSentinel, hashStr pr.2]) (fun pr => rfl) e

theorem noPosHash_mapPos_EnumType (f : PosOrDecl → PosOrDecl) (e : EnumType) :
    (e.mapPos f).noPosHash = e.noPosHash := by
  cases e with
  | mk base cons inc ec =>
    simp only [EnumType.mapPos, EnumType.noPosHash, noPosHash_mapPos_Ty]
    rw [hashOpt_mapPos (noPosHash_mapPos_Ty f) cons,
      hashList_mapPos (noPosHash_mapPos_Ty f) inc]

theorem noPosHash_mapPos_TypedefType (f : PosOrDecl → PosOrDecl) (t : TypedefType) :
    (t.mapPos f).noPosHash = t.noPosHash := by
  cases t with
  | mk pos vis tps cons ty =>
    simp only [TypedefType.mapPos, TypedefType.noPosHash, noPosHash_mapPos_Ty]
    rw [hashList_mapPos (noPosHash_mapPos_Tparam f) tps,
      hashOpt_mapPos (noPosHash_mapPos_Ty f) cons]

theorem noPosHash_mapPos_ClassType (f : PosOrDecl → PosOrDecl) (c : ClassType) :
    (c.mapPos f).noPosHash = c.noPosHash := by
  cases c
  simp only [ClassType.mapPos, ClassType.noPosHash, hashPair]
  rw [hashList_mapPos (noPosHash_mapPos_Tparam f),
    hashList_mapPos (noPosHash_mapPos_WhereConstraint f),
    smapNoPosHash_mapPos (noPosHash_mapPos_ClassConst f),
    smapNoPosHash_mapPos (noPosHash_mapPos_TypeconstType f),
    smapNoPosHash_mapPos (noPosHash_mapPos_ClassElt f),
    smapNoPosHash_mapPos (noPosHash_mapPos_ClassElt f),
    smapNoPosHash_mapPos (noPosHash_mapPos_ClassElt f),
    smapNoPosHash_mapPos (noPosHash_mapPos_ClassElt f),
    hashOpt_mapPos (noPosHash_mapPos_ClassElt f),
    smapNoPosHash_mapPos (noPosHash_mapPos_Ty f),
    hashList_mapPos (noPosHash_mapPos_Requirement f),
    hashOpt_mapPos (noPosHash_mapPos_EnumType f),
    smapNoPosHash_mapPos (g := id) (fun _ => rfl),
    hashOpt_mapPos (noPosHash_mapPos_Errors f)]

theorem noPosHash_mapPos_DeclReference (f : PosOrDecl → PosOrDecl) (d : DeclReference) :
    (d.mapPos f).noPosHash = d.noPosHash := rfl

theorem noPosHash_mapPos_Comment (f : PosOrDecl → PosOrDecl) (c : Comment) :
    (c.mapPos f).noPosHash = c.noPosHash := rfl

/-!
## Claim theorems
-/

/-- Claim C1: for every declaration entity type (ClassConst, ConstDecl,
ClassElt, FunElt, TypeconstType, ClassType, TypedefType, EnumType,
RecordDefType, Requirement, DeclReference, Comment) and every
transformation `f` rewriting only position-typed fields (`mapPos f`), the
position-insensitive hash is unchanged, while standard structural equality
can distinguish an entity from its transform — witnessed for each of the
ten types that carry a position-typed field (`DeclReference` and `Comment`
have none, so `mapPos` is the identity on them). -/
theorem no_pos_hash_position_insensitive :
    (∀ (f : PosOrDecl → PosOrDecl) (e : ClassConst), (e.mapPos f).noPosHash = e.noPosHash) ∧
    (∀ (f : PosOrDecl → PosOrDecl) (e : ConstDecl), (e.mapPos f).noPosHash = e.noPosHash) ∧
    (∀ (f : PosOrDecl → PosOrDecl) (e : ClassElt), (e.mapPos f).noPosHash = e.noPosHash) ∧
    (∀ (f : PosOrDecl → PosOrDecl) (e : FunElt), (e.mapPos f).noPosHash = e.noPosHash) ∧
    (∀ (f : PosOrDecl → PosOrDecl) (e : TypeconstType), (e.mapPos f).noPosHash = e.noPosHash) ∧
    (∀ (f : PosOrDecl → PosOrDecl) (e : ClassType), (e.mapPos f).noPosHash = e.noPosHash) ∧
    (∀ (f : PosOrDecl → PosOrDecl) (e : TypedefType), (e.mapPos f).noPosHash = e.noPosHash) ∧
    (∀ (f : PosOrDecl → PosOrDecl) (e : EnumType), (e.mapPos f).noPosHash = e.noPosHash) ∧
    (∀ (f : PosOrDecl → PosOrDecl) (e : RecordDefType), (e.mapPos f).noPosHash = e.noPosHash) ∧
    (∀ (f : PosOrDecl → PosOrDecl) (e : Requirement), (e.mapPos f).noPosHash = e.noPosHash) ∧
    (∀ (f : PosOrDecl → PosOrDecl) (e : DeclReference), (e.mapPos f).noPosHash = e.noPosHash) ∧
    (∀ (f : PosOrDecl → PosOrDecl) (e : Comment), (e.mapPos f).noPosHash = e.noPosHash) ∧
    (∃ (f : PosOrDecl → PosOrDecl) (e : ClassConst), e.mapPos f ≠ e) ∧
    (∃ (f : PosOrDecl → PosOrDecl) (e : ConstDecl), e.mapPos f ≠ e) ∧
    (∃ (f : PosOrDecl → PosOrDecl) (e : ClassElt), e.mapPos f ≠ e) ∧
    (∃ (f : PosOrDecl → PosOrDecl) (e : FunElt), e.mapPos f ≠ e) ∧
    (∃ (f : PosOrDecl → PosOrDecl) (e : TypeconstType), e.mapPos f ≠ e) ∧
    (∃ (f : PosOrDecl → PosOrDecl) (e : ClassType), e.mapPos f ≠ e) ∧
    (∃ (f : PosOrDecl → PosOrDecl) (e : TypedefType), e.mapPos f ≠ e) ∧
    (∃ (f : PosOrDecl → PosOrDecl) (e : EnumType), e.mapPos f ≠ e) ∧
    (∃ (f : PosOrDecl → PosOrDecl) (e : RecordDefType), e.mapPos f ≠ e) ∧
    (∃ (f : PosOrDecl → PosOrDecl) (e : Requirement), e.mapPos f ≠ e) :=
  ⟨noPosHash_mapPos_ClassConst, noPosHash_mapPos_ConstDecl,
    noPosHash_mapPos_ClassElt, noPosHash_mapPos_FunElt,
    noPosHash_mapPos_TypeconstType, noPosHash_mapPos_ClassType,
    noPosHash_mapPos_TypedefType, noPosHash_mapPos_EnumType,
    noPosHash_mapPos_RecordDefType, noPosHash_mapPos_Requirement,
    noPosHash_mapPos_DeclReference, noPosHash_mapPos_Comment,
    ⟨posBump, sampleClassConst, by decide⟩,
    ⟨posBump, sampleConstDecl, by decide⟩,
    ⟨posBump, sampleClassElt, by decide⟩,
    ⟨posBump, sampleFunElt, by decide⟩,
    ⟨posBump, sampleTypeconstType, by decide⟩,
    ⟨posBump, sampleClassType, by decide⟩,
    ⟨posBump, sampleTypedefType, by decide⟩,
    ⟨posBump, sampleEnumType, by decide⟩,
    ⟨posBump, sampleRecordDefType, by decide⟩,
    ⟨posBump, sampleRequirement, by decide⟩⟩

/-- Claim C10: `ClassConstFrom` and `ClassConstRef` contain no
position-typed field (their layouts mention no position type), so on them
the position-insensitive hash coincides with the standard hash and
position-insensitive equality coincides with standard structural
equality. -/
theorem class_const_ref_position_free :
    ClassConstFrom.rust.mentionsPos = false ∧
    ClassConstRef.rust.mentionsPos = false ∧
    (∀ x : ClassConstFrom, x.noPosHash = x.hash) ∧
    (∀ x : ClassConstRef, x.noPosHash = x.hash) ∧
    (∀ x y : ClassConstFrom, x.eqModPos y ↔ x = y) ∧
    (∀ x y : ClassConstRef, x.eqModPos y ↔ x = y) :=
  ⟨rfl, rfl,
    fun x => by cases x <;> rfl,
    fun x => by cases x <;> rfl,
    fun x y => Iff.rfl,
    fun x y => Iff.rfl⟩

/-- Claim C6: `DeserializationError` is a closed tagged union with exactly
three variants — `WrongPhase`, `NotSupported`, `DeserializationError` —
each carrying a descriptive message string as its only payload: every
value is one of the three, each variant has a distinct tag, the message
accessor returns the payload, and tag plus message determine the value. -/
theorem deserialization_error_closed_union :
    (∀ e : DeserializationError,
      (∃ s, e = DeserializationError.WrongPhase s) ∨
      (∃ s, e = DeserializationError.NotSupported s) ∨
      (∃ s, e = DeserializationError.DeserializationError s)) ∧
    (∀ s, errorCtag (DeserializationError.WrongPhase s) = 0 ∧
      errorCtag (DeserializationError.NotSupported s) = 1 ∧
      errorCtag (DeserializationError.DeserializationError s) = 2) ∧
    (∀ s, errorMessage (DeserializationError.WrongPhase s) = s ∧
      errorMessage (DeserializationError.NotSupported s) = s ∧
      errorMessage (DeserializationError.DeserializationError s) = s) ∧
    (∀ e : DeserializationError, mkDeserializationError (errorCtag e) (errorMessage e) = e) :=
  ⟨fun e => by
    cases e with
    | WrongPhase s => exact Or.inl ⟨s, rfl⟩
    | NotSupported s => exact Or.inr (Or.inl ⟨s, rfl⟩)
    | DeserializationError s => exact Or.inr (Or.inr ⟨s, rfl⟩),
    fun s => ⟨rfl, rfl, rfl⟩,
    fun s => ⟨rfl, rfl, rfl⟩,
    fun e => by cases e <;> rfl⟩

/-- Claim C7: `Typeconst` is a closed tagged union with exactly three
variants: abstract (`TCAbstract`, an optional upper bound, optional lower
bound and optional default), concrete (`TCConcrete`, one resolved type)
and partially-abstract (`TCPartiallyAbstract`, a constraint plus a
resolved type); every value is one of the three, the tags are distinct,
and each payload is exactly the fields listed. -/
theorem typeconst_closed_union :
    (∀ k : Typeconst,
      (∃ a, k = Typeconst.TCAbstract a) ∨
      (∃ c, k = Typeconst.TCConcrete c) ∨
      (∃ p, k = Typeconst.TCPartiallyAbstract p)) ∧
    (∀ a, (Typeconst.TCAbstract a).ctag = 0) ∧
    (∀ c, (Typeconst.TCConcrete c).ctag = 1) ∧
    (∀ p, (Typeconst.TCPartiallyAbstract p).ctag = 2) ∧
    (∀ u s d, (AbstractTypeconst.mk u s d).as_constraint = u ∧
      (AbstractTypeconst.mk u s d).super_constraint = s ∧
      (AbstractTypeconst.mk u s d).default = d) ∧
    (∀ a : AbstractTypeconst,
      a = AbstractTypeconst.mk a.as_constraint a.super_constraint a.default) ∧
    (∀ t, (ConcreteTypeconst.mk t).tc_type = t) ∧
    (∀ c : ConcreteTypeconst, c = ConcreteTypeconst.mk c.tc_type) ∧
    (∀ c t, (PartiallyAbstractTypeconst.mk c t).constraint = c ∧
      (PartiallyAbstractTypeconst.mk c t).type_ = t) ∧
    (∀ p : PartiallyAbstractTypeconst,
      p = PartiallyAbstractTypeconst.mk p.constraint p.type_) :=
  ⟨fun k => by
    cases k with
    | TCAbstract a => exact Or.inl ⟨a, rfl⟩
    | TCConcrete c => exact Or.inr (Or.inl ⟨c, rfl⟩)
    | TCPartiallyAbstract p => exact Or.inr (Or.inr ⟨p, rfl⟩),
    fun a => rfl, fun c => rfl, fun p => rfl,
    fun u s d => ⟨rfl, rfl, rfl⟩, fun a => rfl,
    fun t => rfl, fun c => rfl,
    fun c t => ⟨rfl, rfl⟩, fun p => rfl⟩

/-- Claim C9: `DeclReference` is a closed tagged union with exactly three
variants — `GlobalConstant`, `Function`, `Type` — each carrying exactly
one payload, the referenced declaration's name string (tag plus name
rebuild the value), and no variant carries a source position (the layout
mentions no position type). -/
theorem decl_reference_closed_union :
    (∀ d : DeclReference,
      (∃ s, d = DeclReference.GlobalConstant s) ∨
      (∃ s, d = DeclReference.Function s) ∨
      (∃ s, d = DeclReference.Type_ s)) ∧
    (∀ s, (DeclReference.GlobalConstant s).ctag = 0 ∧
      (DeclReference.Function s).ctag = 1 ∧ (DeclReference.Type_ s).ctag = 2) ∧
    (∀ s, (DeclReference.GlobalConstant s).name = s ∧
      (DeclReference.Function s).name = s ∧ (DeclReference.Type_ s).name = s) ∧
    (∀ d : DeclReference, mkDeclReference d.ctag d.name = d) ∧
    DeclReference.rust.mentionsPos = false :=
  ⟨fun d => by
    cases d with
    | GlobalConstant s => exact Or.inl ⟨s, rfl⟩
    | Function s => exact Or.inr (Or.inl ⟨s, rfl⟩)
    | Type_ s => exact Or.inr (Or.inr ⟨s, rfl⟩),
    fun s => ⟨rfl, rfl, rfl⟩,
    fun s => ⟨rfl, rfl, rfl⟩,
    fun d => by cases d <;> rfl,
    rfl⟩

/-- Claim C8: every declaration entity type in this layer is trivially
droppable — its layout (primitives, borrowed references and slices, and
aggregates thereof) has no drop glue, so discarding a value (hence a whole
arena of them) runs no per-node finalizer. -/
theorem entities_trivially_droppable :
    RustTy.hasDropGlue DeclReference.rust = false ∧
    RustTy.hasDropGlue Comment.rust = false ∧
    RustTy.hasDropGlue ClassConstFrom.rust = false ∧
    RustTy.hasDropGlue ClassConstRef.rust = false ∧
    RustTy.hasDropGlue ConstDecl.rust = false ∧
    RustTy.hasDropGlue ClassElt.rust = false ∧
    RustTy.hasDropGlue FunElt.rust = false ∧
    RustTy.hasDropGlue ClassConst.rust = false ∧
    RustTy.hasDropGlue RecordFieldReq.rust = false ∧
    RustTy.hasDropGlue RecordDefType.rust = false ∧
    RustTy.hasDropGlue Requirement.rust = false ∧
    RustTy.hasDropGlue ClassType.rust = false ∧
    RustTy.hasDropGlue AbstractTypeconst.rust = false ∧
    RustTy.hasDropGlue ConcreteTypeconst.rust = false ∧
    RustTy.hasDropGlue PartiallyAbstractTypeconst.rust = false ∧
    RustTy.hasDropGlue Typeconst.rust = false ∧
    RustTy.hasDropGlue TypeconstType.rust = false ∧
    RustTy.hasDropGlue EnumType.rust = false ∧
    RustTy.hasDropGlue TypedefType.rust = false ∧
    RustTy.hasDropGlue DeserializationError.rust = false := by
  refine ⟨?_, ?_, ?_, ?_, ?_, ?_, ?_, ?_, ?_, ?_, ?_, ?_, ?_, ?_, ?_, ?_, ?_, ?_, ?_, ?_⟩ <;> decide

/-!
## Helper lemmas: the interchange codec
-/

theorem decodePos_encodePos (p : PosOrDecl) : decodePos (encodePos p) = Except.ok p := rfl

theorem decodePosId_encodePosId (pid : PosId) :
    decodePosId (encodePosId pid) = Except.ok pid := rfl

theorem decodeTy_encodeTy (t : Ty) (h : t.phase = Phase.decl) :
    decodeTy Phase.decl (encodeTy t) = Except.ok t := by
  cases t with
  | mk ph pos node =>
    cases ph with
    | decl => rfl
    | locl => exact absurd h (by simp)

theorem decodeTy_wrongPhase (t : Ty) (h : t.phase = Phase.locl) :
    decodeTy Phase.decl (encodeTy t) =
      Except.error (DeserializationError.WrongPhase "type node of the other resolution phase") := by
  cases t with
  | mk ph pos node =>
    cases ph with
    | decl => exact absurd h (by simp)
    | locl => rfl

theorem decodeTy_ok_phase {expected : Phase} {v : Value} {t : Ty}
    (h : decodeTy expected v = Except.ok t) : t.phase = expected := by
  cases v with
  | vint n => exact Except.noConfusion h
  | vstr s => exact Except.noConfusion h
  | vbool b => exact Except.noConfusion h
  | vtag tag args =>
    simp only [decodeTy] at h
    split at h
    · split at h
      · split at h
        · injection h with h2
          subst h2
          rfl
        · exact Except.noConfusion h
      · exact Except.noConfusion h
    · split at h
      · exact Except.noConfusion h
      · exact Except.noConfusion h

theorem decodeOpt_encodeOpt_ty (o : Option Ty) (h : o.all Ty.isDecl = true) :
    decodeOpt (decodeTy Phase.decl) (encodeOpt encodeTy o) = Except.ok o := by
  cases o with
  | none => rfl
  | some t =>
    have ht : t.phase = Phase.decl := by
      cases hp : t.phase
      · rfl
      · simp [Option.all, Ty.isDecl, hp] at h
    simp [encodeOpt, decodeOpt, decodeTy_encodeTy t ht]

theorem decodeOpt_encodeOpt_pos (o : Option PosOrDecl) :
    decodeOpt decodePos (encodeOpt encodePos o) = Except.ok o := by
  cases o with
  | none => rfl
  | some p => simp [encodeOpt, decodeOpt, decodePos_encodePos]

theorem decodeOpt_ty_ok_all {v : Value} {o : Option Ty}
    (h : decodeOpt (decodeTy Phase.decl) v = Except.ok o) : o.all Ty.isDecl = true := by
  unfold decodeOpt at h
  split at h
  · injection h with h2
    subst h2
    rfl
  · rename_i w
    split at h
    · rename_i a ha
      injection h with h2
      subst h2
      simp [Option.all, Ty.isDecl, decodeTy_ok_phase ha]
    · exact Except.noConfusion h
  · exact Except.noConfusion h

theorem Ty.isDecl_phase {t : Ty} (h : t.isDecl = true) : t.phase = Phase.decl := by
  cases t with
  | mk ph pos node =>
    cases ph
    · rfl
    · exact Bool.noConfusion h

theorem decodeTypeconst_ok_declPhase {v : Value} {k : Typeconst}
    (h : decodeTypeconst v = Except.ok k) : k.declPhase = true := by
  cases v with
  | vint n => exact Except.noConfusion h
  | vstr s => exact Except.noConfusion h
  | vbool b => exact Except.noConfusion h
  | vtag tag args =>
    simp only [decodeTypeconst] at h
    split at h
    · split at h
      · split at h
        · exact Except.noConfusion h
        · rename_i oa ha
          split at h
          · exact Except.noConfusion h
          · rename_i os hs
            split at h
            · exact Except.noConfusion h
            · rename_i od hd
              injection h with h2
              subst h2
              simp [Typeconst.declPhase, decodeOpt_ty_ok_all ha,
                decodeOpt_ty_ok_all hs, decodeOpt_ty_ok_all hd]
      · exact Except.noConfusion h
    · split at h
      · split at h
        · split at h
          · exact Except.noConfusion h
          · rename_i ty hty
            injection h with h2
            subst h2
            simp [Typeconst.declPhase, Ty.isDecl, decodeTy_ok_phase hty]
        · exact Except.noConfusion h
      · split at h
        · split at h
          · split at h
            · exact Except.noConfusion h
            · rename_i cty hcty
              split at h
              · exact Except.noConfusion h
              · rename_i ty hty
                injection h with h2
                subst h2
                simp [Typeconst.declPhase, Ty.isDecl, decodeTy_ok_phase hcty,
                  decodeTy_ok_phase hty]
          · exact Except.noConfusion h
        · exact Except.noConfusion h

theorem decodeTypeconst_encodeTypeconst (k : Typeconst) (h : k.declPhase = true) :
    decodeTypeconst (encodeTypeconst k) = Except.ok k := by
  cases k with
  | TCAbstract a =>
    cases a with
    | mk u s d =>
      simp only [Typeconst.declPhase, Bool.and_eq_true] at h
      obtain ⟨⟨hu, hs⟩, hd⟩ := h
      simp [encodeTypeconst, decodeTypeconst, decodeOpt_encodeOpt_ty _ hu,
        decodeOpt_encodeOpt_ty _ hs, decodeOpt_encodeOpt_ty _ hd]
  | TCConcrete c =>
    cases c with
    | mk t =>
      simp only [Typeconst.declPhase] at h
      simp [encodeTypeconst, decodeTypeconst, decodeTy_encodeTy t (Ty.isDecl_phase h)]
  | TCPartiallyAbstract p =>
    cases p with
    | mk c t =>
      simp only [Typeconst.declPhase, Bool.and_eq_true] at h
      obtain ⟨hc, ht⟩ := h
      simp [encodeTypeconst, decodeTypeconst, decodeTy_encodeTy c (Ty.isDecl_phase hc),
        decodeTy_encodeTy t (Ty.isDecl_phase ht)]

theorem decodeTypeconstType_ok_declPhase {v : Value} {tt : TypeconstType}
    (h : decodeTypeconstType v = Except.ok tt) : tt.declPhase = true := by
  unfold decodeTypeconstType at h
  split at h
  · rename_i syn nm k org ep eb rf conc ictx
    split at h
    · exact Except.noConfusion h
    · rename_i name hname
      split at h
      · exact Except.noConfusion h
      · rename_i kind hkind
        split at h
        · exact Except.noConfusion h
        · rename_i epos hepos
          split at h
          · exact Except.noConfusion h
          · rename_i reif hreif
            injection h with h2
            subst h2
            simp [TypeconstType.declPhase, decodeTypeconst_ok_declPhase hkind]
  · exact Except.noConfusion h

theorem decodeTypeconstType_encodeTypeconstType (tt : TypeconstType)
    (h : tt.declPhase = true) :
    decodeTypeconstType (encodeTypeconstType tt) = Except.ok tt := by
  cases tt with
  | mk syn name kind org enf reif conc ictx =>
    simp only [TypeconstType.declPhase] at h
    simp [encodeTypeconstType, decodeTypeconstType, decodePosId_encodePosId,
      decodeTypeconst_encodeTypeconst kind h, decodePos_encodePos,
      decodeOpt_encodeOpt_pos]

theorem decodeDeclReference_encodeDeclReference (d : DeclReference) :
    decodeDeclReference (encodeDeclReference d) = Except.ok d := by
  cases d <;> rfl

/-- Claim C2: for every entity graph producible by `decode` (here for the
representative entity types `TypeconstType` and `DeclReference`),
re-decoding its encoding is the identity under position-sensitive
structural equality. -/
theorem decode_encode_roundtrip :
    (∀ (w : Value) (g : TypeconstType), decodeTypeconstType w = Except.ok g →
      decodeTypeconstType (encodeTypeconstType g) = Except.ok g) ∧
    (∀ (w : Value) (g : DeclReference), decodeDeclReference w = Except.ok g →
      decodeDeclReference (encodeDeclReference g) = Except.ok g) :=
  ⟨fun _w g h => decodeTypeconstType_encodeTypeconstType g (decodeTypeconstType_ok_declPhase h),
    fun _w g _h => decodeDeclReference_encodeDeclReference g⟩

/-- Claim C2 witness: a concrete decodable wire value round-trips. -/
theorem decode_encode_roundtrip_witness :
    decodeTypeconstType (encodeTypeconstType sampleTypeconstType) =
      Except.ok sampleTypeconstType ∧
    decodeDeclReference (encodeDeclReference sampleDeclReference) =
      Except.ok sampleDeclReference :=
  ⟨decode_encode_roundtrip.1 (encodeTypeconstType sampleTypeconstType)
      sampleTypeconstType (by rfl),
    decode_encode_roundtrip.2 (encodeDeclReference sampleDeclReference)
      sampleDeclReference (by rfl)⟩

/-- Claim C5: a wire value whose variant tag is outside the known variant
set of `Typeconst` (0, 1, 2) decodes to
`DeserializationError.DeserializationError` (a total, non-crashing
result), and a well-tagged input containing a type node of the wrong
resolution phase where the decl phase is required decodes to
`DeserializationError.WrongPhase`. -/
theorem malformed_input_errors :
    (∀ (tag : Nat) (args : List Value), 3 ≤ tag →
      decodeTypeconst (Value.vtag tag args) =
        Except.error (DeserializationError.DeserializationError
          "type constant: tag not in the known variant set")) ∧
    (∀ t : Ty, t.phase = Phase.locl →
      decodeTy Phase.decl (encodeTy t) =
        Except.error (DeserializationError.WrongPhase
          "type node of the other resolution phase")) ∧
    (∀ t : Ty, t.phase = Phase.locl →
      decodeTypeconst (Value.vtag 1 [encodeTy t]) =
        Except.error (DeserializationError.WrongPhase
          "type node of the other resolution phase")) := by
  refine ⟨?_, ?_, ?_⟩
  · intro tag args h
    obtain ⟨k, rfl⟩ : ∃ k, tag = k + 3 := ⟨tag - 3, by omega⟩
    rfl
  · exact decodeTy_wrongPhase
  · intro t h
    simp [decodeTypeconst, decodeTy_wrongPhase t h]

/-- Claim C5 witness: concrete malformed and wrong-phase inputs. -/
theorem malformed_input_errors_witness :
    decodeTypeconst (Value.vtag 7 []) =
      Except.error (DeserializationError.DeserializationError
        "type constant: tag not in the known variant set") ∧
    decodeTy Phase.decl (encodeTy sampleLoclTy) =
      Except.error (DeserializationError.WrongPhase
        "type node of the other resolution phase") ∧
    decodeTypeconst (Value.vtag 1 [encodeTy sampleLoclTy]) =
      Except.error (DeserializationError.WrongPhase
        "type node of the other resolution phase") :=
  ⟨malformed_input_errors.1 7 [] (by omega),
    malformed_input_errors.2.1 sampleLoclTy rfl,
    malformed_input_errors.2.2 sampleLoclTy rfl⟩

/-- Claim C4: for a `TypeconstType` whose `enforceable` field was produced
by the (spec-modelled) decl pipeline from a real attribute provenance:
when the boolean is false the position is the trivial `Pos_or_decl.none`;
when the boolean is true the position is a non-trivial source location;
and outside the legacy composition mode the boolean can only be true
from the typeconst's own `<<__Enforceable>>` attribute. -/
theorem typeconst_enforceable_invariant :
    ∀ (mode : DeclMode) (src : EnforceableSource) (tt : TypeconstType),
      src.real → tt.enforceable = mkEnforceable mode src →
      (tt.enforceable.2 = false → tt.enforceable.1 = PosOrDecl.none) ∧
      (tt.enforceable.2 = true → tt.enforceable.1 ≠ PosOrDecl.none) ∧
      (mode = DeclMode.shallow → tt.enforceable.2 = true →
        ∃ p, src = EnforceableSource.ownAttribute p) := by
  intro mode src tt hr he
  rw [he]
  cases mode <;> cases src <;>
    simp_all [mkEnforceable, EnforceableSource.real]

/-- Claim C4 witness: a concrete typeconst with its own `<<__Enforceable>>`
attribute at a real position, in shallow mode. -/
theorem typeconst_enforceable_invariant_witness :
    (EnforceableSource.ownAttribute samplePos).real ∧
    sampleTypeconstType.enforceable =
      mkEnforceable DeclMode.shallow (EnforceableSource.ownAttribute samplePos) ∧
    ((sampleTypeconstType.enforceable.2 = false →
        sampleTypeconstType.enforceable.1 = PosOrDecl.none) ∧
      (sampleTypeconstType.enforceable.2 = true →
        sampleTypeconstType.enforceable.1 ≠ PosOrDecl.none) ∧
      (DeclMode.shallow = DeclMode.shallow →
        sampleTypeconstType.enforceable.2 = true →
        ∃ p, EnforceableSource.ownAttribute samplePos =
          EnforceableSource.ownAttribute p)) :=
  ⟨by decide, rfl,
    typeconst_enforceable_invariant DeclMode.shallow
      (EnforceableSource.ownAttribute samplePos) sampleTypeconstType
      (by decide) rfl⟩

/-- Claim C3 counterexample: `ConstDecl` records no declaring origin class
name — it is fully determined by its `pos` and `type_` fields alone, so no
accessor can report an origin chosen independently of position and type. -/
theorem const_decl_has_no_origin_field :
    ¬ ∃ originOf : ConstDecl → String,
      ∀ (p : PosOrDecl) (t : Ty) (s : String),
        ∃ c : ConstDecl, c.pos = p ∧ c.type_ = t ∧ originOf c = s := by
  rintro ⟨o, h⟩
  obtain ⟨c, hp, ht, ho⟩ := h samplePos sampleTy (o ⟨samplePos, sampleTy⟩ ++ "x")
  have hc : c = ⟨samplePos, sampleTy⟩ := by
    cases c
    cases hp
    cases ht
    rfl
  rw [hc] at ho
  have hlen := congrArg String.length ho
  rw [String.length_append] at hlen
  have hone : "x".length = 1 := rfl
  rw [hone] at hlen
  omega

/-- Claim C3 (amended): `ConstDecl` records a constant's position and type
only; `ClassConst` records the position, type, declaring origin class
name, the set of initializer `ClassConstRef`s, and the
`abstract_`/`synthesized` flags — each field independently stored and
recoverable, and the whole value is exactly these fields. -/
theorem const_decl_class_const_fields :
    (∀ (p : PosOrDecl) (t : Ty),
      (ConstDecl.mk p t).pos = p ∧ (ConstDecl.mk p t).type_ = t) ∧
    (∀ c : ConstDecl, c = ConstDecl.mk c.pos c.type_) ∧
    (∀ (syn ab : Bool) (p : PosOrDecl) (t : Ty) (og : String)
        (r : List ClassConstRef),
      (ClassConst.mk syn ab p t og r).synthesized = syn ∧
      (ClassConst.mk syn ab p t og r).abstract_ = ab ∧
      (ClassConst.mk syn ab p t og r).pos = p ∧
      (ClassConst.mk syn ab p t og r).type_ = t ∧
      (ClassConst.mk syn ab p t og r).origin = og ∧
      (ClassConst.mk syn ab p t og r).refs = r) ∧
    (∀ c : ClassConst,
      c = ClassConst.mk c.synthesized c.abstract_ c.pos c.type_ c.origin c.refs) :=
  ⟨fun p t => ⟨rfl, rfl⟩, fun c => rfl,
    fun syn ab p t og r => ⟨rfl, rfl, rfl, rfl, rfl, rfl⟩, fun c => rfl⟩
